import Mathlib

/-
  Verification of the detection-and-action loop of the RobloxPrograms
  repository (src/FirstCheatWithUI.py, DetectorWorker, and the equivalent
  module-level loop of src/Cheat.py).

  Shallow embedding conventions:
  - wall-clock timestamps (time.perf_counter values) are rationals;
  - screen coordinates are integers;
  - the numeric output of cv2.matchTemplate followed by np.where is
    abstracted, per cycle and per template index, as the list of
    above-threshold locations in scan order; the control flow around it
    (round-robin slice, cooldown skip, first-hit break, dispatch gating,
    timestamp write-back) is translated literally from the source;
  - the win32 pointer primitives are recorded as events instead of being
    performed, so that theorems can speak about which primitives a run
    invokes.
-/

namespace Detector

/-- Pointer primitives of the pointer-action capability.  SetCursorPos is
the absolute move, mouse_event MOUSEEVENTF_MOVE is a relative move (the
wiggle), mouse_event LEFTDOWN / LEFTUP are button press / release. -/
inductive Prim where
  | moveAbsolute (x y : Int)
  | moveRel (dx dy : Int)
  | buttonPress
  | buttonRelease
deriving DecidableEq, Repr

/-- Observable events of a worker run: a logged match line, a pointer
primitive, the "clicked" log line, and the "not supported on this OS"
log line. -/
inductive Ev where
  | logMatch (name : String) (x y : Int)
  | pointer (p : Prim)
  | logClicked
  | logNoOS
deriving DecidableEq, Repr

/-- The configuration snapshot the worker reads at the top of _run
(FirstCheatWithUI.py lines 218-229): only the fields that the modelled
control flow actually consumes. -/
structure Cfg where
  scale : ℚ
  tpt : Nat
  cooldown : ℚ
  simulate_only : Bool
  allow_real : Bool
  windows : Bool
  wiggle : Int
  left : Int
  top : Int

/-- Python int() on a rational: truncation toward zero. -/
def pyInt (q : ℚ) : Int := if q < 0 then -(Int.floor (-q)) else Int.floor q

/-- Coordinate mapping of one axis, verbatim from
cx = region["left"] + int((x_s + entry["tw_s"] // 2) / SCALE)
(FirstCheatWithUI.py line 262, Cheat.py line 133).  The halving of the
scaled template width is Nat division, matching the Python // operator. -/
def mapCx (left : Int) (x_s tw_s : Nat) (scale : ℚ) : Int :=
  left + pyInt (((x_s + tw_s / 2 : Nat) : ℚ) / scale)

/-- The offset addition performed inside lowlevel_hover_click
(Cheat.py line 75): tx = x + offset[0]. -/
def clickTx (x dx : Int) : Int := x + dx

/-- Action dispatch for one logged match, from FirstCheatWithUI.py lines
267-281: the pointer primitives run only under
not simulate_only and allow_real and WINDOWS; on a non-Windows host with
clicking requested, only a log line is produced. -/
def dispatchEvs (cfg : Cfg) (cx cy : Int) : List Ev :=
  if !cfg.simulate_only && cfg.allow_real && cfg.windows then
    [Ev.pointer (Prim.moveAbsolute cx cy),
     Ev.pointer (Prim.moveRel cfg.wiggle 0),
     Ev.pointer (Prim.moveRel (-cfg.wiggle) 0),
     Ev.pointer Prim.buttonPress,
     Ev.pointer Prim.buttonRelease,
     Ev.logClicked]
  else if !cfg.windows && !cfg.simulate_only && cfg.allow_real then
    [Ev.logNoOS]
  else []

/-- One loaded template: the fields of the per-template dict built by
_prepare_templates (FirstCheatWithUI.py lines 188-193).  The image buffer
itself is not needed by the modelled control flow. -/
structure Entry where
  name : String
  tw_s : Nat
  th_s : Nat
  last_click_ts : ℚ
deriving DecidableEq, Repr

/-- The round-robin slice of FirstCheatWithUI.py lines 244-247 (equally
Cheat.py lines 112-115), translated literally:
  end = min(idx + TEMPLATES_PER_TICK, len(lib))
  subset = lib[idx:end]
  if end - idx < TEMPLATES_PER_TICK:
      subset += lib[:TEMPLATES_PER_TICK - (end - idx)]
-/
def selectSubset {α : Type} (lib : List α) (idx tpt : Nat) : List α :=
  let endI := min (idx + tpt) lib.length
  let first := (lib.drop idx).take (endI - idx)
  if endI - idx < tpt then first ++ lib.take (tpt - (endI - idx)) else first

/-- The same slice expressed on template indices; because the Python
subset holds aliases into the library and a fire mutates the library
entry in place, the scan below works on indices and writes back by
index. -/
def selectIdxs (L idx tpt : Nat) : List Nat :=
  selectSubset (List.range L) idx tpt

/-- Result of scanning the selected subset within one cycle. -/
structure ScanOut where
  lib : List Entry
  evs : List Ev
  evald : List Nat
  fired : Option Nat
deriving Repr

/-- The subset scan of one cycle, FirstCheatWithUI.py lines 250-286
(equally Cheat.py lines 118-142):
  - a template whose elapsed time since last_click_ts is below the
    cooldown is skipped without correlation (line 254);
  - otherwise correlation runs (its above-threshold locations are the
    list found i, in scan order) and the index is recorded in evald;
  - the head location, if any, is logged, the timestamp is written back
    (line 265), dispatch runs, and the loop breaks (lines 283-286), so
    the remaining selected templates are not evaluated this cycle.
now is the perf_counter sample of line 250; ts the one of line 265. -/
def scanIdxs (cfg : Cfg) (now ts : ℚ) (found : Nat → List (Nat × Nat))
    (lib : List Entry) : List Nat → ScanOut
  | [] => ⟨lib, [], [], none⟩
  | i :: rest =>
    match lib[i]? with
    | none => scanIdxs cfg now ts found lib rest
    | some e =>
      if now - e.last_click_ts < cfg.cooldown then
        scanIdxs cfg now ts found lib rest
      else
        match found i with
        | [] =>
          let r := scanIdxs cfg now ts found lib rest
          ⟨r.lib, r.evs, i :: r.evald, r.fired⟩
        | (x_s, y_s) :: _ =>
          let cx := mapCx cfg.left x_s e.tw_s cfg.scale
          let cy := mapCx cfg.top y_s e.th_s cfg.scale
          ⟨lib.set i ⟨e.name, e.tw_s, e.th_s, ts⟩,
           Ev.logMatch e.name cx cy :: dispatchEvs cfg cx cy,
           [i], some i⟩

/-- Worker state across cycles: the loaded template list and the
round-robin index _idx. -/
structure WState where
  templates : List Entry
  idx : Nat
deriving Repr

/-- One iteration of the while loop of _run (FirstCheatWithUI.py lines
232-291): with an empty library the cycle only backs off (line 241);
otherwise the subset is chosen, _idx advances modulo the library size
(line 248), and the subset is scanned. -/
def runCycle (cfg : Cfg) (now ts : ℚ) (found : Nat → List (Nat × Nat))
    (st : WState) : WState × List Ev :=
  if st.templates.isEmpty then (st, [])
  else
    let L := st.templates.length
    let sel := selectIdxs L st.idx cfg.tpt
    let r := scanIdxs cfg now ts found st.templates sel
    (⟨r.lib, (st.idx + cfg.tpt) % L⟩, r.evs)

/-- A run over a list of cycle inputs (now, ts, correlation outcome). -/
def runCycles (cfg : Cfg) :
    List (ℚ × ℚ × (Nat → List (Nat × Nat))) → WState → WState × List Ev
  | [], st => (st, [])
  | c :: rest, st =>
    let r1 := runCycle cfg c.1 c.2.1 c.2.2 st
    let r2 := runCycles cfg rest r1.1
    (r2.1, r1.2 ++ r2.2)

/-- Recognizer for pointer-primitive events. -/
def isPointer : Ev → Bool
  | Ev.pointer _ => true
  | _ => false

/-- The pointer primitives contained in an event trace. -/
def pointerEvs (l : List Ev) : List Ev := l.filter isPointer

/-! ## C1: simulate-only mode invokes no pointer primitive -/

theorem dispatchEvs_simulate_only (cfg : Cfg) (h : cfg.simulate_only = true)
    (cx cy : Int) : dispatchEvs cfg cx cy = [] := by
  simp [dispatchEvs, h]

theorem scanIdxs_simulate_only_pointerFree (cfg : Cfg)
    (h : cfg.simulate_only = true) (now ts : ℚ)
    (found : Nat → List (Nat × Nat)) (lib : List Entry) (S : List Nat) :
    pointerEvs (scanIdxs cfg now ts found lib S).evs = [] := by
  induction S generalizing lib with
  | nil => simp [scanIdxs, pointerEvs]
  | cons i rest ih =>
    simp only [scanIdxs]
    cases hl : lib[i]? with
    | none => exact ih lib
    | some e =>
      by_cases hc : now - e.last_click_ts < cfg.cooldown
      · simp only [hc, if_pos]
        exact ih lib
      · simp only [hc, if_neg, if_false]
        cases hf : found i with
        | nil => exact ih lib
        | cons p rest2 =>
          cases p with
          | mk x_s y_s =>
            simp [pointerEvs, dispatchEvs_simulate_only cfg h, isPointer]

theorem runCycle_simulate_only_pointerFree (cfg : Cfg)
    (h : cfg.simulate_only = true) (now ts : ℚ)
    (found : Nat → List (Nat × Nat)) (st : WState) :
    pointerEvs (runCycle cfg now ts found st).2 = [] := by
  unfold runCycle
  by_cases he : st.templates.isEmpty
  · simp [he, pointerEvs]
  · simp only [he, if_neg, Bool.false_eq_true, not_false_iff]
    exact scanIdxs_simulate_only_pointerFree cfg h now ts found st.templates _

/-- C1: in every run configured with simulateOnly = true, no pointer
primitive (moveAbsolute, moveRel wiggle, buttonPress, buttonRelease) is
ever invoked, regardless of allow_real, the host platform, or the number
of qualifying matches across any number of cycles; matches are only
logged. -/
theorem simulate_only_never_clicks
    (scale cooldown : ℚ) (tpt : Nat) (allow_real windows : Bool)
    (wiggle left top : Int)
    (inputs : List (ℚ × ℚ × (Nat → List (Nat × Nat)))) (st : WState) :
    pointerEvs (runCycles ⟨scale, tpt, cooldown, true, allow_real,
      windows, wiggle, left, top⟩ inputs st).2 = [] := by
  induction inputs generalizing st with
  | nil => simp [runCycles, pointerEvs]
  | cons c rest ih =>
    simp only [runCycles, pointerEvs, List.filter_append, List.append_eq_nil]
    exact ⟨runCycle_simulate_only_pointerFree _ rfl c.1 c.2.1 c.2.2 st, ih _⟩

/-! ## C2: number of templates selected per cycle -/

/-- C2 counterexample: with a library of size 1 and templatesPerCycle = 2
the slice selects the single template twice, so the selection count is 2,
not min(templatesPerCycle, libSize) = 1. -/
theorem selectSubset_not_min :
    (selectSubset [0] 0 2).length ≠ min 2 ([0] : List Nat).length := by
  decide

/-- C2 (amended): when the batch size is at most the library size (and
the cursor is in range, as the loop maintains), the slice selects exactly
min(templatesPerCycle, libSize) = templatesPerCycle templates, wrapping
past the end of the library to its start. -/
theorem selectSubset_length_eq_min {α : Type} (lib : List α) (idx B : Nat)
    (hidx : idx < lib.length) (hB : B ≤ lib.length) :
    (selectSubset lib idx B).length = min B lib.length := by
  unfold selectSubset
  dsimp only
  rcases le_or_lt (idx + B) lib.length with h | h
  · rw [min_eq_left h]
    have hno : ¬ (idx + B - idx < B) := by omega
    rw [if_neg hno]
    simp only [List.length_take, List.length_drop]
    rw [Nat.add_sub_cancel_left, min_eq_left (show B ≤ lib.length - idx by omega),
      min_eq_left hB]
  · rw [min_eq_right h.le]
    have hcond : lib.length - idx < B := by omega
    rw [if_pos hcond]
    simp only [List.length_append, List.length_take, List.length_drop]
    rw [min_self, min_eq_left (show B - (lib.length - idx) ≤ lib.length by omega),
      min_eq_left hB]
    omega

/-- Witness for C2 (amended): library of size 3, batch 2, cursor 2 — the
slice wraps and still selects exactly 2 templates. -/
theorem selectSubset_length_eq_min_witness :
    2 < ([10, 11, 12] : List Nat).length ∧ 2 ≤ ([10, 11, 12] : List Nat).length ∧
    (selectSubset [10, 11, 12] 2 2).length = min 2 ([10, 11, 12] : List Nat).length :=
  ⟨by decide, by decide,
    selectSubset_length_eq_min [10, 11, 12] 2 2 (by decide) (by decide)⟩

/-! ## C3: round-robin cursor invariant and coverage -/

/-- The cursor update of FirstCheatWithUI.py line 248 (Cheat.py line
116): idx = (idx + TEMPLATES_PER_TICK) % len(loaded_templates). -/
def cursorStep (L B c : Nat) : Nat := (c + B) % L

/-- The cursor after N cycles. -/
def cursorIter (L B c : Nat) : Nat → Nat
  | 0 => c
  | n + 1 => cursorStep L B (cursorIter L B c n)

theorem cursorIter_eq (L B c : Nat) (hc : c < L) :
    ∀ N, cursorIter L B c N = (c + N * B) % L
  | 0 => by simp [cursorIter, Nat.mod_eq_of_lt hc]
  | N + 1 => by
    rw [cursorIter, cursorStep, cursorIter_eq L B c hc N, Nat.mod_add_mod]
    congr 1
    ring

/-- Any library index reachable from the cursor within the slice length
is a member of the selected index slice. -/
theorem mem_selectIdxs (L c B o : Nat) (hc : c < L) (hoB : o < B) (hoL : o < L) :
    (c + o) % L ∈ selectIdxs L c B := by
  unfold selectIdxs selectSubset
  dsimp only
  simp only [List.length_range]
  rcases lt_or_le (c + o) L with hw | hw
  · have ht : (c + o) % L = c + o := Nat.mod_eq_of_lt hw
    have hlen : o < (((List.range L).drop c).take (min (c + B) L - c)).length := by
      simp only [List.length_take, List.length_drop, List.length_range]
      have h1 : c + o < min (c + B) L := lt_min (by omega) hw
      exact lt_min (by omega) (by omega)
    have hmem : (c + o) ∈ ((List.range L).drop c).take (min (c + B) L - c) := by
      have hgm := List.getElem_mem hlen
      rwa [List.getElem_take, List.getElem_drop, List.getElem_range] at hgm
    rw [ht]
    by_cases hcond : min (c + B) L - c < B
    · rw [if_pos hcond]
      exact List.mem_append_left _ hmem
    · rw [if_neg hcond]
      exact hmem
  · have ht : (c + o) % L = c + o - L := by
      rw [Nat.mod_eq_sub_mod hw, Nat.mod_eq_of_lt (by omega)]
    have hendI : min (c + B) L = L := min_eq_right (by omega)
    rw [ht, hendI, if_pos (show L - c < B by omega)]
    refine List.mem_append_right _ ?_
    rw [List.take_range]
    exact List.mem_range.mpr (lt_min (by omega) (by omega))

/-- C3: starting from a cursor in [0, L) over a non-empty library, the
cursor stays in [0, L) after every cycle, equals
(initialCursor + N * B) mod L after N cycles, and over any window of
ceil(L / B) consecutive cycles every library index is selected at least
once. -/
theorem roundRobin_cursor_and_coverage (L B c N t : Nat)
    (hL : 0 < L) (hc : c < L) (hB : 0 < B) (ht : t < L) :
    cursorIter L B c N < L ∧
    cursorIter L B c N = (c + N * B) % L ∧
    ∃ j, j < (L + B - 1) / B ∧ t ∈ selectIdxs L (cursorIter L B c (N + j)) B := by
  refine ⟨?_, cursorIter_eq L B c hc N, ?_⟩
  · rw [cursorIter_eq L B c hc N]
    exact Nat.mod_lt _ hL
  · set c0 := cursorIter L B c N with hc0
    have hc0lt : c0 < L := by
      rw [hc0, cursorIter_eq L B c hc N]
      exact Nat.mod_lt _ hL
    set d := (t + L - c0) % L with hd
    have hdlt : d < L := Nat.mod_lt _ hL
    have hcj : cursorIter L B c (N + d / B) = (c0 + d / B * B) % L := by
      rw [cursorIter_eq L B c hc, hc0, cursorIter_eq L B c hc, Nat.mod_add_mod]
      congr 1
      ring
    have hcjlt : cursorIter L B c (N + d / B) < L := by
      rw [hcj]
      exact Nat.mod_lt _ hL
    have hsum : (cursorIter L B c (N + d / B) + d % B) % L = t := by
      rw [hcj, Nat.mod_add_mod, Nat.add_assoc, Nat.div_add_mod', Nat.add_mod_mod,
        show c0 + (t + L - c0) = t + L by omega, Nat.add_mod_right]
      exact Nat.mod_eq_of_lt ht
    refine ⟨d / B, ?_, ?_⟩
    · calc d / B ≤ (L - 1) / B := Nat.div_le_div_right (by omega)
        _ < (L + B - 1) / B := by
          rw [show L + B - 1 = (L - 1) + B by omega, Nat.add_div_right _ hB]
          omega
    · have hmem := mem_selectIdxs L (cursorIter L B c (N + d / B)) B (d % B)
        hcjlt (Nat.mod_lt _ hB) (lt_of_le_of_lt (Nat.mod_le d B) hdlt)
      rwa [hsum] at hmem

/-- Witness for C3: library of size 3, batch 2, initial cursor 0, window
starting after 5 cycles, template index 2. -/
theorem roundRobin_cursor_and_coverage_witness :
    0 < 3 ∧ 0 < 2 ∧ 2 < 3 ∧
    (cursorIter 3 2 0 5 < 3 ∧ cursorIter 3 2 0 5 = (0 + 5 * 2) % 3 ∧
      ∃ j, j < (3 + 2 - 1) / 2 ∧ 2 ∈ selectIdxs 3 (cursorIter 3 2 0 (5 + j)) 2) :=
  ⟨by decide, by decide, by decide,
    roundRobin_cursor_and_coverage 3 2 0 5 2 (by decide) (by decide) (by decide)
      (by decide)⟩

/-! ## C4: cancellation flag and sleep placement -/

/-- The observable step kinds of one loop iteration of _run: the head
check of the while condition (line 232), the cycle body (capture, match,
dispatch, lines 233-287), and the pacing sleep (line 291). -/
inductive LEv where
  | check
  | work
  | sleep
deriving DecidableEq, Repr

/-- Timed trace of the worker loop, FirstCheatWithUI.py lines 232-291.
Each iteration reads self._stop_evt exactly once, at the head of the
cycle; the body and the pacing sleep contain no further read.  stop()
runs on another thread, so the request instant stopAt is arbitrary
relative to the steps: from instant stopAt on, the flag reads set.
Instants count successive observable steps. -/
def loopRun : Nat → Nat → Nat → List (Nat × LEv)
  | 0, _, _ => []
  | fuel + 1, stopAt, t =>
    if stopAt ≤ t then [(t, LEv.check)]
    else (t, LEv.check) :: (t + 1, LEv.work) :: (t + 2, LEv.sleep) ::
      loopRun fuel stopAt (t + 3)

/-- A sleep step beginning at or after the stop request. -/
def isLateSleep (stopAt : Nat) (e : Nat × LEv) : Bool :=
  match e.2 with
  | LEv.sleep => decide (stopAt ≤ e.1)
  | _ => false

/-- Number of sleeps that begin after cancellation has been requested. -/
def lateSleeps (stopAt : Nat) (tr : List (Nat × LEv)) : Nat :=
  (tr.filter (isLateSleep stopAt)).length

/-- C4 counterexample: when the stop request arrives right after the
head check of a cycle (instant 1), the pacing sleep of that cycle
(instant 2) still begins after cancellation was requested, because the
flag is not re-read between the head check and the sleep. -/
theorem sleep_after_stop_requested : lateSleeps 1 (loopRun 2 1 0) ≠ 0 := by
  decide

theorem loopRun_stopped (fuel stopAt t : Nat) (h : stopAt ≤ t) :
    lateSleeps stopAt (loopRun fuel stopAt t) = 0 := by
  cases fuel with
  | zero => simp [loopRun, lateSleeps]
  | succ n => simp [loopRun, if_pos h, lateSleeps, List.filter_cons, isLateSleep]

theorem lateSleeps_cons_check (stopAt t : Nat) (tr : List (Nat × LEv)) :
    lateSleeps stopAt ((t, LEv.check) :: tr) = lateSleeps stopAt tr := by
  simp [lateSleeps, List.filter_cons, isLateSleep]

theorem lateSleeps_cons_work (stopAt t : Nat) (tr : List (Nat × LEv)) :
    lateSleeps stopAt ((t, LEv.work) :: tr) = lateSleeps stopAt tr := by
  simp [lateSleeps, List.filter_cons, isLateSleep]

theorem lateSleeps_cons_sleep (stopAt t : Nat) (tr : List (Nat × LEv)) :
    lateSleeps stopAt ((t, LEv.sleep) :: tr)
      = (if stopAt ≤ t then 1 else 0) + lateSleeps stopAt tr := by
  by_cases h : stopAt ≤ t <;>
    simp [lateSleeps, List.filter_cons, isLateSleep, h, Nat.add_comm]

/-- C4 (amended): the stop flag is read once per cycle, at the head of
the loop only; a cycle already past its head check still completes its
body and pacing sleep before the flag is observed again, so at most one
sleep begins after the stop request — shutdown latency is bounded by the
remainder of one cycle (its body plus one sleep), not by a pre-sleep
check. -/
theorem at_most_one_sleep_after_stop (fuel stopAt t : Nat) :
    lateSleeps stopAt (loopRun fuel stopAt t) ≤ 1 := by
  induction fuel generalizing t with
  | zero => simp [loopRun, lateSleeps]
  | succ n ih =>
    by_cases h : stopAt ≤ t
    · rw [loopRun_stopped (n + 1) stopAt t h]
      exact Nat.zero_le 1
    · rw [loopRun, if_neg h, lateSleeps_cons_check, lateSleeps_cons_work,
        lateSleeps_cons_sleep]
      by_cases h2 : stopAt ≤ t + 2
      · rw [if_pos h2, loopRun_stopped n stopAt (t + 3) (by omega)]
      · rw [if_neg h2]
        simpa using ih (t + 3)

/-! ## C5: start-time configuration validation -/

/-- The settings snapshot built by App._start, FirstCheatWithUI.py lines
480-488.  Values come straight from the UI variables. -/
structure AppSettings where
  template_folder : String
  threshold : ℚ
  scale : ℚ
  fps_target : Int
  templates_per_tick : Int
  scan_fraction : ℚ
  simulate_only : Bool
  allow_real_clicks : Bool

/-- App._start, FirstCheatWithUI.py lines 464-492, as a decision
procedure: given the running flag and the list of missing optional
dependencies, it returns (running after the call, whether the worker was
launched).  No guard of _start consults the settings snapshot: the
source contains no range validation and no ConfigurationError. -/
def appStart (running : Bool) (missingDeps : List String) (_s : AppSettings) :
    Bool × Bool :=
  if running then (running, false)
  else if !missingDeps.isEmpty then (false, false)
  else (true, true)

/-- A configuration that is out of range in the sense of the claim:
scale ≤ 0 and threshold outside [0, 1]. -/
def badSettings : AppSettings :=
  ⟨"", 2, 0, 20, 4, 7/10, true, false⟩

/-- C5 counterexample: with dependencies present and the app not already
running, start() launches the run even though scale ≤ 0 and
threshold > 1 — no ConfigurationError is raised and the detection run
does begin. -/
theorem start_accepts_out_of_range :
    badSettings.scale ≤ 0 ∧ (1 : ℚ) < badSettings.threshold ∧
    appStart false [] badSettings = (true, true) :=
  ⟨by norm_num [badSettings], by norm_num [badSettings], rfl⟩

/-- C5 (amended): start() performs no validation of configuration
values: its result is independent of the settings snapshot, and with the
dependencies installed and the app not already running the detection run
begins whatever the configuration holds.  (Inside the worker,
scan_fraction and fps_target are clamped rather than rejected; other
out-of-range values surface, at worst, as a logged worker fault during
the run.) -/
theorem start_ignores_settings (running : Bool) (deps : List String)
    (s₁ s₂ : AppSettings) :
    appStart running deps s₁ = appStart running deps s₂ ∧
    appStart false [] s₁ = (true, true) :=
  ⟨rfl, rfl⟩

/-! ## C6: coordinate mapping -/

/-- The mapping the claim ascribes to the Coordinate Mapper, modelled
from the spec for comparison with mapCx / clickTx above: template center
with exact halving of the scaled width, division by the scale factor,
region origin and offset added, rounding to integer pixel performed
last. -/
def specMapCx (left : Int) (x_s tw_s : Nat) (scale : ℚ) (dx : Int) : Int :=
  Int.floor (((x_s : ℚ) + (tw_s : ℚ) / 2) / scale + (left : ℚ) + (dx : ℚ))

/-- C6 counterexample: for an odd scaled template width (tw_s = 25, the
width of a 50-pixel template scaled by 0.5) the code maps x_s = 100 to
224 while the exact-halving rounding-last formula yields 225. -/
theorem mapCx_ne_specMapCx :
    clickTx (mapCx 0 100 25 (1/2)) 0 ≠ specMapCx 0 100 25 (1/2) 0 := by
  norm_num [clickTx, mapCx, specMapCx, pyInt]

/-- C6 (amended): the code halves the scaled template width with integer
floor division (tw_s // 2) and truncates the quotient by the scale
factor before adding the region origin and the offset; because origin
and offset are integers this equals rounding last applied to the
integer-halved center.  On the documented 50×50 / scale 0.5 example the
result is region origin + (224, 324), within one pixel of the claimed
(225, 325). -/
theorem mapCx_rounding (left top dx : Int) (x tw : Nat) (scale : ℚ)
    (hs : 0 < scale) :
    clickTx (mapCx left x tw scale) dx
      = Int.floor (((x + tw / 2 : Nat) : ℚ) / scale + (left : ℚ) + (dx : ℚ)) ∧
    clickTx (mapCx left 100 25 (1/2)) 0 = left + 224 ∧
    clickTx (mapCx top 150 25 (1/2)) 0 = top + 324 ∧
    (left + 225) - clickTx (mapCx left 100 25 (1/2)) 0 ≤ 1 ∧
    (top + 325) - clickTx (mapCx top 150 25 (1/2)) 0 ≤ 1 := by
  have h100 : ∀ y : Int, clickTx (mapCx y 100 25 (1/2)) 0 = y + 224 := by
    intro y
    norm_num [clickTx, mapCx, pyInt]
  have h150 : ∀ y : Int, clickTx (mapCx y 150 25 (1/2)) 0 = y + 324 := by
    intro y
    norm_num [clickTx, mapCx, pyInt]
  refine ⟨?_, h100 left, h150 top, ?_, ?_⟩
  · have hnn : (0 : ℚ) ≤ ((x + tw / 2 : Nat) : ℚ) / scale :=
      div_nonneg (Nat.cast_nonneg _) hs.le
    rw [clickTx, mapCx, pyInt, if_neg (not_lt.mpr hnn)]
    have hcast : ((x + tw / 2 : Nat) : ℚ) / scale + (left : ℚ) + (dx : ℚ)
        = ((x + tw / 2 : Nat) : ℚ) / scale + ((left + dx : Int) : ℚ) := by
      push_cast
      ring
    rw [hcast, Int.floor_add_int]
    ring
  · rw [h100 left]
    omega
  · rw [h150 top]
    omega

/-- Witness for C6 (amended), at left 5, top 7, offset 3, match (10, ·),
scaled width 4, scale 1/2. -/
theorem mapCx_rounding_witness :
    (0 : ℚ) < 1/2 ∧
    (clickTx (mapCx 5 10 4 (1/2)) 3
      = Int.floor (((10 + 4 / 2 : Nat) : ℚ) / (1/2) + ((5 : Int) : ℚ) + ((3 : Int) : ℚ)) ∧
    clickTx (mapCx 5 100 25 (1/2)) 0 = 5 + 224 ∧
    clickTx (mapCx 7 150 25 (1/2)) 0 = 7 + 324 ∧
    (5 + 225) - clickTx (mapCx 5 100 25 (1/2)) 0 ≤ 1 ∧
    (7 + 325) - clickTx (mapCx 7 150 25 (1/2)) 0 ≤ 1) :=
  ⟨by norm_num, mapCx_rounding 5 7 3 10 4 (1/2) (by norm_num)⟩

/-! ## C7: single action per cycle, first qualifying match wins -/

/-- Whether the template at index i qualifies to fire this cycle: it
exists in the library, it is outside its cooldown window, and its
correlation output has at least one above-threshold location. -/
def firesAt (cfg : Cfg) (now : ℚ) (found : Nat → List (Nat × Nat))
    (lib : List Entry) (i : Nat) : Bool :=
  match lib[i]? with
  | none => false
  | some e => !decide (now - e.last_click_ts < cfg.cooldown) && !(found i).isEmpty

/-- Recognizer for match-log events; every dispatch emits exactly one. -/
def isLogMatch : Ev → Bool
  | Ev.logMatch _ _ _ => true
  | _ => false

theorem countP_isLogMatch_dispatchEvs (cfg : Cfg) (cx cy : Int) :
    (dispatchEvs cfg cx cy).countP isLogMatch = 0 := by
  unfold dispatchEvs
  split_ifs <;> simp [isLogMatch, List.countP_cons]

/-- C7: within a cycle the selected subset is processed in scan order;
the template that fires is exactly the first selected one that
qualifies, the cycle dispatches at most one action (at most one match is
logged), and any evaluated index that qualifies is the fired one — so
when two selected templates would both match, the second is neither
dispatched nor even evaluated that cycle. -/
theorem first_match_wins (cfg : Cfg) (now ts : ℚ)
    (found : Nat → List (Nat × Nat)) (lib : List Entry) (S : List Nat) :
    (scanIdxs cfg now ts found lib S).fired = S.find? (firesAt cfg now found lib) ∧
    ((scanIdxs cfg now ts found lib S).evs.countP isLogMatch) ≤ 1 ∧
    ∀ j ∈ (scanIdxs cfg now ts found lib S).evald,
      firesAt cfg now found lib j = true →
        (scanIdxs cfg now ts found lib S).fired = some j := by
  induction S with
  | nil => simp [scanIdxs]
  | cons i rest ih =>
    obtain ⟨ih1, ih2, ih3⟩ := ih
    simp only [scanIdxs]
    cases hl : lib[i]? with
    | none =>
      dsimp only
      have hf : firesAt cfg now found lib i = false := by simp [firesAt, hl]
      rw [List.find?_cons_of_neg rest (by simp [hf])]
      exact ⟨ih1, ih2, ih3⟩
    | some e =>
      dsimp only
      by_cases hc : now - e.last_click_ts < cfg.cooldown
      · have hf : firesAt cfg now found lib i = false := by
          simp [firesAt, hl, hc]
        rw [if_pos hc, List.find?_cons_of_neg rest (by simp [hf])]
        exact ⟨ih1, ih2, ih3⟩
      · rw [if_neg hc]
        cases hfo : found i with
        | nil =>
          dsimp only
          have hf : firesAt cfg now found lib i = false := by
            simp [firesAt, hl, hc, hfo]
          rw [List.find?_cons_of_neg rest (by simp [hf])]
          refine ⟨ih1, ih2, ?_⟩
          intro j hj hq
          rcases List.mem_cons.mp hj with rfl | hj2
          · rw [hq] at hf
            cases hf
          · exact ih3 j hj2 hq
        | cons p tail =>
          cases p with
          | mk x_s y_s =>
            dsimp only
            have hf : firesAt cfg now found lib i = true := by
              simp [firesAt, hl, hc, hfo]
            rw [List.find?_cons_of_pos rest hf]
            refine ⟨rfl, ?_, ?_⟩
            · simp [List.countP_cons, isLogMatch, countP_isLogMatch_dispatchEvs]
            · intro j hj _
              rcases List.mem_cons.mp hj with rfl | hj2
              · rfl
              · cases hj2

/-! ## C8: cooldown enforcement -/

/-- The per-template projection of the loop for one template that is
selected and matched in every cycle (the worst case named by the claim):
each cycle samples now at line 250 of FirstCheatWithUI.py and, when the
elapsed time since last_click_ts reaches the cooldown, the template
fires and line 265 records the dispatch timestamp ts as the new
last_click_ts; otherwise line 254 skips it.  Returns the recorded firing
timestamps in order. -/
def cooldownRun (cd : ℚ) : ℚ → List (ℚ × ℚ) → List ℚ
  | _, [] => []
  | last, (now, ts) :: rest =>
    if now - last < cd then cooldownRun cd last rest
    else ts :: cooldownRun cd ts rest

/-- Monotonicity of the perf_counter samples: each cycle samples now no
earlier than the preceding write of line 265, and the line-265 sample is
no earlier than the now of that same cycle. -/
def timesOrdered (last : ℚ) : List (ℚ × ℚ) → Bool
  | [] => true
  | (now, ts) :: rest =>
    decide (last ≤ now) && decide (now ≤ ts) && timesOrdered ts rest

theorem timesOrdered_mono (l₁ l₂ : ℚ) (cycles : List (ℚ × ℚ))
    (h : l₁ ≤ l₂) (ho : timesOrdered l₂ cycles = true) :
    timesOrdered l₁ cycles = true := by
  cases cycles with
  | nil => rfl
  | cons c rest =>
    cases c with
    | mk now ts =>
      simp only [timesOrdered, Bool.and_eq_true, decide_eq_true_eq] at ho ⊢
      exact ⟨⟨le_trans h ho.1.1, ho.1.2⟩, ho.2⟩

theorem cooldownRun_head (cd : ℚ) (last : ℚ) (cycles : List (ℚ × ℚ))
    (ho : timesOrdered last cycles = true) :
    ∀ y ∈ (cooldownRun cd last cycles).head?, last + cd ≤ y := by
  induction cycles generalizing last with
  | nil => simp [cooldownRun]
  | cons c rest ih =>
    cases c with
    | mk now ts =>
      simp only [timesOrdered, Bool.and_eq_true, decide_eq_true_eq] at ho
      obtain ⟨⟨h1, h2⟩, h3⟩ := ho
      simp only [cooldownRun]
      by_cases hcool : now - last < cd
      · rw [if_pos hcool]
        exact ih last (timesOrdered_mono last ts rest (le_trans h1 h2) h3)
      · rw [if_neg hcool]
        intro y hy
        simp only [List.head?_cons, Option.mem_def, Option.some.injEq] at hy
        subst hy
        linarith [not_lt.mp hcool]

theorem cooldownRun_chain (cd : ℚ) (last : ℚ) (cycles : List (ℚ × ℚ))
    (ho : timesOrdered last cycles = true) :
    List.Chain' (fun a b => a + cd ≤ b) (cooldownRun cd last cycles) := by
  induction cycles generalizing last with
  | nil => simp [cooldownRun]
  | cons c rest ih =>
    cases c with
    | mk now ts =>
      simp only [timesOrdered, Bool.and_eq_true, decide_eq_true_eq] at ho
      obtain ⟨⟨h1, h2⟩, h3⟩ := ho
      simp only [cooldownRun]
      by_cases hcool : now - last < cd
      · rw [if_pos hcool]
        exact ih last (timesOrdered_mono last ts rest (le_trans h1 h2) h3)
      · rw [if_neg hcool]
        exact List.chain'_cons'.mpr ⟨cooldownRun_head cd ts rest h3, ih ts h3⟩

/-- Every index recorded as evaluated by a subset scan belongs to an
entry that was outside its cooldown window at the now of that cycle. -/
theorem mem_evald_not_cooling (cfg : Cfg) (now ts : ℚ)
    (found : Nat → List (Nat × Nat)) (lib : List Entry) (S : List Nat) :
    ∀ j ∈ (scanIdxs cfg now ts found lib S).evald,
      ∃ e, lib[j]? = some e ∧ ¬(now - e.last_click_ts < cfg.cooldown) := by
  induction S with
  | nil => simp [scanIdxs]
  | cons i rest ih =>
    simp only [scanIdxs]
    cases hl : lib[i]? with
    | none =>
      dsimp only
      exact ih
    | some e =>
      dsimp only
      by_cases hc : now - e.last_click_ts < cfg.cooldown
      · rw [if_pos hc]
        exact ih
      · rw [if_neg hc]
        cases hfo : found i with
        | nil =>
          dsimp only
          intro j hj
          rcases List.mem_cons.mp hj with rfl | hj2
          · exact ⟨e, hl, hc⟩
          · exact ih j hj2
        | cons p tail =>
          cases p with
          | mk x_s y_s =>
            dsimp only
            intro j hj
            rcases List.mem_cons.mp hj with rfl | hj2
            · exact ⟨e, hl, hc⟩
            · cases hj2

/-- C8: over a run in which the template is selected and matched every
cycle and the perf_counter samples are monotone, any two recorded firing
timestamps are at least cooldownSeconds apart — a template that fires at
timestamp t does not fire again before t + cooldownSeconds; and within
any one cycle a selected template still inside its cooldown window is
skipped without running correlation on it. -/
theorem cooldown_enforced (cd last : ℚ) (cycles : List (ℚ × ℚ))
    (cfg : Cfg) (now ts : ℚ) (found : Nat → List (Nat × Nat))
    (lib : List Entry) (S : List Nat)
    (hcd : 0 ≤ cd) (hord : timesOrdered last cycles = true) :
    List.Pairwise (fun a b => a + cd ≤ b) (cooldownRun cd last cycles) ∧
    ∀ i ∈ S, ∀ e, lib[i]? = some e → now - e.last_click_ts < cfg.cooldown →
      i ∉ (scanIdxs cfg now ts found lib S).evald := by
  constructor
  · have htr : IsTrans ℚ (fun a b => a + cd ≤ b) :=
      ⟨fun a b c hab hbc => by
        have : b ≤ b + cd := by linarith
        linarith⟩
    exact (@List.chain'_iff_pairwise ℚ (fun a b => a + cd ≤ b) htr _).mp
      (cooldownRun_chain cd last cycles hord)
  · intro i _ e he hcool hmem
    obtain ⟨e2, he2, hnc⟩ := mem_evald_not_cooling cfg now ts found lib S i hmem
    rw [he] at he2
    cases he2
    exact hnc hcool

/-- Witness for C8: cooldown 1/4 starting from last = 0 over three
cycles at times 1, 11/10 and 13/10 — the template fires at 1 and 13/10
but is skipped at 11/10; and a cooling selected template is not
evaluated. -/
theorem cooldown_enforced_witness :
    (0 : ℚ) ≤ 1/4 ∧
    timesOrdered 0 [(1, 1), (11/10, 11/10), (13/10, 13/10)] = true ∧
    (List.Pairwise (fun a b => a + (1 : ℚ)/4 ≤ b)
      (cooldownRun (1/4) 0 [(1, 1), (11/10, 11/10), (13/10, 13/10)]) ∧
    ∀ i ∈ [0], ∀ e, [Entry.mk "a" 4 4 1][i]? = some e →
      (11 : ℚ)/10 - e.last_click_ts < (⟨1/2, 4, 1/4, true, false, false, 2, 0, 0⟩ : Cfg).cooldown →
      i ∉ (scanIdxs ⟨1/2, 4, 1/4, true, false, false, 2, 0, 0⟩ (11/10) (12/10)
        (fun _ => [(3, 4)]) [Entry.mk "a" 4 4 1] [0]).evald) :=
  ⟨by norm_num, by norm_num [timesOrdered],
    cooldown_enforced (1/4) 0 [(1, 1), (11/10, 11/10), (13/10, 13/10)]
      ⟨1/2, 4, 1/4, true, false, false, 2, 0, 0⟩ (11/10) (12/10)
      (fun _ => [(3, 4)]) [Entry.mk "a" 4 4 1] [0]
      (by norm_num) (by norm_num [timesOrdered])⟩

/-! ## C9: last_click_ts is the only mutation, by the firing entry only -/

/-- C9: the subset scan of a cycle never changes the length of the library; every
index other than the fired one keeps its entry unchanged (in particular,
when nothing fires the library is untouched); and the fired index keeps
its name and scaled dimensions, with only last_click_ts rewritten — to
the dispatch timestamp of its own firing event. -/
theorem last_click_ts_frame (cfg : Cfg) (now ts : ℚ)
    (found : Nat → List (Nat × Nat)) (lib : List Entry) (S : List Nat) :
    (scanIdxs cfg now ts found lib S).lib.length = lib.length ∧
    (∀ j, (scanIdxs cfg now ts found lib S).fired ≠ some j →
      (scanIdxs cfg now ts found lib S).lib[j]? = lib[j]?) ∧
    (∀ i, (scanIdxs cfg now ts found lib S).fired = some i →
      ∃ e, lib[i]? = some e ∧
        (scanIdxs cfg now ts found lib S).lib[i]?
          = some ⟨e.name, e.tw_s, e.th_s, ts⟩) := by
  induction S with
  | nil =>
    refine ⟨rfl, fun j _ => rfl, fun i hi => ?_⟩
    cases hi
  | cons i rest ih =>
    obtain ⟨ih1, ih2, ih3⟩ := ih
    simp only [scanIdxs]
    cases hl : lib[i]? with
    | none =>
      dsimp only
      exact ⟨ih1, ih2, ih3⟩
    | some e =>
      dsimp only
      by_cases hc : now - e.last_click_ts < cfg.cooldown
      · rw [if_pos hc]
        exact ⟨ih1, ih2, ih3⟩
      · rw [if_neg hc]
        cases hfo : found i with
        | nil =>
          dsimp only
          exact ⟨ih1, ih2, ih3⟩
        | cons p tail =>
          cases p with
          | mk x_s y_s =>
            dsimp only
            have hlen : i < lib.length := by
              rcases List.getElem?_eq_some.mp hl with ⟨h, _⟩
              exact h
            refine ⟨List.length_set lib i _, ?_, ?_⟩
            · intro j hj
              have hij : i ≠ j := fun hh => hj (by rw [hh])
              rw [List.getElem?_set, if_neg hij]
            · intro i0 hi0
              cases hi0
              exact ⟨e, hl, by rw [List.getElem?_set, if_pos rfl, if_pos hlen]⟩

/-! ## C10: start() is a no-op while the worker thread is alive -/

/-- DetectorWorker state: the stop event, the worker thread slot (none
before the first start; some b afterwards, with b telling whether the
thread is alive), the loaded templates and the round-robin index
(FirstCheatWithUI.py lines 146-153). -/
structure DWorker where
  stop_evt : Bool
  thread : Option Bool
  loaded : List Entry
  idx : Nat
deriving DecidableEq, Repr

/-- DetectorWorker.start, FirstCheatWithUI.py lines 155-160: if a thread
object exists and is alive, return immediately; otherwise clear the stop
event and launch a fresh worker thread.  The second component tells
whether a new thread was created. -/
def DWorker.start (w : DWorker) : DWorker × Bool :=
  match w.thread with
  | some true => (w, false)
  | _ => (⟨false, some true, w.loaded, w.idx⟩, true)

/-- C10: calling start() while the worker thread is alive is a no-op:
the stop event, the thread, the loaded template list and the round-robin
index are all left unchanged and no second thread is created — so at
most one worker thread exists per DetectorWorker at any time. -/
theorem start_noop_when_alive (w : DWorker) (h : w.thread = some true) :
    DWorker.start w = (w, false) := by
  simp [DWorker.start, h]

/-- Witness for C10 at a concrete alive worker. -/
theorem start_noop_when_alive_witness :
    (⟨false, some true, [], 0⟩ : DWorker).thread = some true ∧
    DWorker.start ⟨false, some true, [], 0⟩
      = ((⟨false, some true, [], 0⟩ : DWorker), false) :=
  ⟨rfl, start_noop_when_alive _ rfl⟩

end Detector
